import Mathlib

/-!
# Panokeet — verification of the recording/transcription core

Shallow embedding of the Panokeet voice-dictation utility (Python sources)
into Lean 4, together with theorems settling the specification claims about
the hotkey-driven recording state machine, the transcription step, output
normalization, sequential training-data IDs, modifier matching and the
review popup.

The embedding follows the source files:
* `recorder.py` — `Recorder.start` / `_callback` / `stop`
* `app.py` — `WhisperDictateApp` (`toggle_recording`, `start_recording`,
  `stop_recording`, the `setup_hotkeys` callback, `do_transcribe`,
  `save_training_data`)
* `transcriber.py` — `transcribe` and its output normalization
* `backend/server.py` — `RecorderState.transcribe`, `save_transcript`
* `panokeet_v3.py` — `check_modifiers`
* `popup.py` — `TranscriptionPopup.show` / `onDone_` / `onCancel_`
-/

namespace Panokeet

/-! ## Controller state machine (app.py + recorder.py)

`WhisperDictateApp` keeps `is_recording : bool`, `hold_key_pressed : bool`
and a `status` string in `{"ready", "recording", "transcribing"}`; the
`Recorder` keeps `recording : bool`, a list of captured sample blocks and
the open input stream.  We model sample blocks abstractly as natural
numbers.  The field `sessions` is a history variable recording one entry
per arm-to-disarm recording episode (the spec's `RecordingSession`): an
entry is appended `active` when `start_recording` actually arms, and every
`active` entry is marked `finished` when `stop_recording` actually disarms.
The field `inflight` counts running `do_transcribe` background threads
(each such thread is the one that invokes the transcription engine). -/

inductive Status where
  | ready
  | recording
  | transcribing
deriving DecidableEq

inductive SessState where
  | active
  | finished
deriving DecidableEq

/-- State of `Recorder` (recorder.py): the `recording` flag consulted by the
audio callback, the captured sample blocks, and whether the input stream is
open. -/
structure RecState where
  recording : Bool
  audioData : List Nat
  streamOpen : Bool
deriving DecidableEq

/-- `Recorder.start`: clears the buffer, sets the flag and opens the stream. -/
def recorderStart (_r : RecState) : RecState :=
  { recording := true, audioData := [], streamOpen := true }

/-- `Recorder._callback`: appends the incoming block while the `recording`
flag is set, otherwise drops it. -/
def recorderCallback (b : Nat) (r : RecState) : RecState :=
  if r.recording then { r with audioData := r.audioData ++ [b] } else r

/-- `Recorder.stop`: clears the flag, closes the stream, and returns `none`
when zero sample blocks were captured, otherwise the concatenated audio and
its length (standing for the temp WAV file and its duration). -/
def recorderStop (r : RecState) : RecState × Option (List Nat × Nat) :=
  let r' : RecState := { recording := false, audioData := r.audioData, streamOpen := false }
  if r.audioData = [] then (r', none) else (r', some (r.audioData, r.audioData.length))

/-- State of `WhisperDictateApp` (app.py), plus the `sessions` history
variable and the `inflight` count of running `do_transcribe` threads. -/
structure AppState where
  isRecording : Bool
  holdKeyPressed : Bool
  status : Status
  recorder : RecState
  sessions : List SessState
  inflight : Nat
deriving DecidableEq

/-- Marks every `active` session entry `finished` (there is at most one). -/
def finishActive (l : List SessState) : List SessState :=
  l.map (fun s => match s with | .active => .finished | .finished => .finished)

/-- `WhisperDictateApp.start_recording`: returns immediately when already
recording; otherwise sets the flag, status `recording`, and arms the
recorder.  The history variable gains one `active` session. -/
def startRecording (a : AppState) : AppState :=
  if a.isRecording then a
  else
    { a with
      isRecording := true
      status := .recording
      recorder := recorderStart a.recorder
      sessions := a.sessions ++ [SessState.active] }

/-- `WhisperDictateApp.stop_recording`: returns immediately when not
recording; otherwise clears the flag, sets status `transcribing`, disarms
the recorder, and either resets status to `ready` (no audio) or spawns the
`do_transcribe` background thread (`inflight + 1`). -/
def stopRecording (a : AppState) : AppState :=
  if a.isRecording then
    let p := recorderStop a.recorder
    match p.2 with
    | none =>
        { a with
          isRecording := false
          status := .ready
          recorder := p.1
          sessions := finishActive a.sessions }
    | some _ =>
        { a with
          isRecording := false
          status := .transcribing
          recorder := p.1
          sessions := finishActive a.sessions
          inflight := a.inflight + 1 }
  else a

/-- `WhisperDictateApp.toggle_recording`. -/
def toggleRecording (a : AppState) : AppState :=
  if a.isRecording then stopRecording a else startRecording a

/-- Outcome of one `do_transcribe` background thread: either the thread
body ran to its final `update_status("ready")`, or an exception escaped
(e.g. `transcribe` raising `FileNotFoundError`, or an I/O failure in
`save_training_data`) and killed the thread first. -/
inductive TransOutcome where
  | completed
  | raised
deriving DecidableEq

/-- Completion of one `do_transcribe` thread.  On `completed` the thread's
trailing `update_status("ready")` runs; on `raised` the thread dies and the
status is left as it was. -/
def transcribeDone (o : TransOutcome) (a : AppState) : AppState :=
  if a.inflight = 0 then a
  else
    match o with
    | .raised => { a with inflight := a.inflight - 1 }
    | .completed => { a with inflight := a.inflight - 1, status := .ready }

/-- The two configured hotkeys (`toggle_key`, `hold_key` in config.json). -/
structure Config where
  toggleKey : Nat
  holdKey : Nat
deriving DecidableEq

/-- External stimuli of the controller: key events from the event tap,
sample blocks from the audio callback, and completion of a background
transcription thread. -/
inductive Event where
  | keyDown (k : Nat)
  | keyUp (k : Nat)
  | audioBlock (b : Nat)
  | transDone (o : TransOutcome)
deriving DecidableEq

/-- The `setup_hotkeys` event-tap callback of app.py plus the other two
asynchronous entry points, serialized into one step function (single-writer
discipline). -/
def step (cfg : Config) (a : AppState) : Event → AppState
  | .keyDown k =>
      if k = cfg.toggleKey then toggleRecording a
      else if k = cfg.holdKey ∧ a.holdKeyPressed = false then
        startRecording { a with holdKeyPressed := true }
      else a
  | .keyUp k =>
      if k = cfg.holdKey ∧ a.holdKeyPressed = true then
        stopRecording { a with holdKeyPressed := false }
      else a
  | .audioBlock b => { a with recorder := recorderCallback b a.recorder }
  | .transDone o => transcribeDone o a

/-- Applies a sequence of events from a given state. -/
def run (cfg : Config) (evs : List Event) (a : AppState) : AppState :=
  evs.foldl (step cfg) a

/-- The initial state of `WhisperDictateApp.__init__`. -/
def initState : AppState :=
  { isRecording := false
    holdKeyPressed := false
    status := .ready
    recorder := { recording := false, audioData := [], streamOpen := false }
    sessions := []
    inflight := 0 }

/-- Number of sessions currently `active` in the history variable. -/
def activeCount (l : List SessState) : Nat :=
  (l.filter (fun s => decide (s = SessState.active))).length

/-! ### The single-session invariant -/

/-- The inductive invariant: the number of `active` sessions is exactly `1`
while `is_recording` is set and `0` otherwise. -/
def SessInv (a : AppState) : Prop :=
  activeCount a.sessions = (if a.isRecording then 1 else 0)

theorem activeCount_append_active (l : List SessState) :
    activeCount (l ++ [SessState.active]) = activeCount l + 1 := by
  simp [activeCount, List.filter_append]

theorem activeCount_finishActive (l : List SessState) :
    activeCount (finishActive l) = 0 := by
  induction l with
  | nil => rfl
  | cons s t ih =>
      cases s <;> simpa [finishActive, activeCount] using ih

theorem startRecording_inv {a : AppState} (h : SessInv a) :
    SessInv (startRecording a) := by
  cases hr : a.isRecording
  · simp [SessInv, startRecording, hr, activeCount_append_active] at h ⊢
    omega
  · simpa [startRecording, hr] using h

theorem stopRecording_inv {a : AppState} (h : SessInv a) :
    SessInv (stopRecording a) := by
  unfold stopRecording
  by_cases hr : a.isRecording
  · cases hp : (recorderStop a.recorder).2 <;>
      simp [hr, hp, SessInv, activeCount_finishActive]
  · simpa [hr] using h

theorem toggleRecording_inv {a : AppState} (h : SessInv a) :
    SessInv (toggleRecording a) := by
  unfold toggleRecording
  by_cases hr : a.isRecording = true
  · simpa [hr] using stopRecording_inv h
  · simpa [hr] using startRecording_inv h

theorem step_inv {cfg : Config} {a : AppState} (e : Event) (h : SessInv a) :
    SessInv (step cfg a e) := by
  cases e with
  | keyDown k =>
      by_cases ht : k = cfg.toggleKey
      · simpa [step, ht] using toggleRecording_inv h
      · by_cases hh : k = cfg.holdKey ∧ a.holdKeyPressed = false
        · obtain ⟨hk, hp⟩ := hh
          subst hk
          have h1 : SessInv { a with holdKeyPressed := true } := h
          simpa [step, ht, hp] using startRecording_inv h1
        · simp [step, ht, hh, h]
  | keyUp k =>
      by_cases hh : k = cfg.holdKey ∧ a.holdKeyPressed = true
      · obtain ⟨hk, hp⟩ := hh
        subst hk
        have h1 : SessInv { a with holdKeyPressed := false } := h
        simpa [step, hp] using stopRecording_inv h1
      · simp [step, hh, h]
  | audioBlock b => simpa [step, SessInv] using h
  | transDone o =>
      unfold step transcribeDone
      by_cases hz : a.inflight = 0
      · simpa [hz] using h
      · cases o <;> simpa [hz, SessInv] using h

theorem run_inv (cfg : Config) (evs : List Event) {a : AppState}
    (h : SessInv a) : SessInv (run cfg evs a) := by
  induction evs generalizing a with
  | nil => simpa [run] using h
  | cons e t ih =>
      have h1 : SessInv (step cfg a e) := step_inv e h
      simpa [run, List.foldl_cons] using ih h1

theorem initState_inv : SessInv initState := by
  simp [SessInv, initState, activeCount]

/-- `start_recording` returns before touching anything when `is_recording`
is already set (first line of `WhisperDictateApp.start_recording`). -/
theorem startRecording_noop {a : AppState} (hr : a.isRecording = true) :
    startRecording a = a := by
  simp [startRecording, hr]

/-- `stop_recording` always clears `is_recording` when it was set. -/
theorem stopRecording_isRecording {a : AppState} (hr : a.isRecording = true) :
    (stopRecording a).isRecording = false := by
  unfold stopRecording
  cases hp : (recorderStop a.recorder).2 <;> simp [hr, hp]

/-- `stop_recording` returns before touching anything when not recording. -/
theorem stopRecording_noop {a : AppState} (hr : a.isRecording = false) :
    stopRecording a = a := by
  simp [stopRecording, hr]

/-! ## Claim C1 — at most one active session; start while active is a no-op -/

/-- C1: from the initial Idle state, every sequence of key events / arbiter
commands keeps at most one `RecordingSession` active, and a start request
arriving while a session is active is an idempotent no-op: the controller's
`start_recording` leaves the state unchanged, and a hold-binding Down event
while recording leaves the recording flag, the session history and the
recorder untouched (only the arbiter latch may flip). -/
theorem C1_single_active_session (cfg : Config) (evs : List Event) :
    activeCount (run cfg evs initState).sessions ≤ 1 ∧
    (∀ a : AppState, a.isRecording = true → startRecording a = a) ∧
    (∀ a : AppState, cfg.toggleKey ≠ cfg.holdKey → a.isRecording = true →
      (step cfg a (Event.keyDown cfg.holdKey)).isRecording = true ∧
      (step cfg a (Event.keyDown cfg.holdKey)).sessions = a.sessions ∧
      (step cfg a (Event.keyDown cfg.holdKey)).recorder = a.recorder) := by
  refine ⟨?_, fun a hr => startRecording_noop hr, ?_⟩
  · have h := run_inv cfg evs initState_inv
    unfold SessInv at h
    by_cases hr : (run cfg evs initState).isRecording = true <;> simp [hr] at h <;> omega
  · intro a hk hr
    have hk' : ¬(cfg.holdKey = cfg.toggleKey) := fun h => hk h.symm
    cases hp : a.holdKeyPressed with
    | true => simp [step, hk', hp, hr]
    | false => simp [step, hk', hp, hr, startRecording]

theorem C1_single_active_session_witness :
    activeCount (run ⟨1, 2⟩ [Event.keyDown 1] initState).sessions ≤ 1 ∧
    startRecording (run ⟨1, 2⟩ [Event.keyDown 1] initState) =
      run ⟨1, 2⟩ [Event.keyDown 1] initState ∧
    (step ⟨1, 2⟩ (run ⟨1, 2⟩ [Event.keyDown 1] initState)
        (Event.keyDown 2)).sessions =
      (run ⟨1, 2⟩ [Event.keyDown 1] initState).sessions :=
  ⟨(C1_single_active_session ⟨1, 2⟩ [Event.keyDown 1]).1,
   (C1_single_active_session ⟨1, 2⟩ [Event.keyDown 1]).2.1 _ (by decide),
   ((C1_single_active_session ⟨1, 2⟩ [Event.keyDown 1]).2.2 _ (by decide)
      (by decide)).2.1⟩

/-! ## Claim C2 — cross-binding events during a session

The spec claims a toggle Down during a hold session is ignored, and a hold
Down during a toggle session causes no state change then or on the
subsequent hold Up.  The code has no such exclusion: the event callback
interprets a toggle Down while recording as a stop (regardless of which
binding started the session), and a hold Down while a toggle session runs
latches `hold_key_pressed`, so the following hold Up stops the toggle
session. -/

/-- C2 counterexample (toggle binding on keycode 1, hold binding on 2):
after `[Down 2, block, Down 1]` the hold session has been stopped by the
toggle Down, and after `[Down 1, block, Down 2, Up 2]` the toggle session
has been stopped by the hold Up — in both runs the claim predicts the
controller would still be recording. -/
theorem C2_counterexample :
    (run ⟨1, 2⟩ [Event.keyDown 2, Event.audioBlock 5, Event.keyDown 1]
        initState).isRecording = false ∧
    (run ⟨1, 2⟩ [Event.keyDown 1, Event.audioBlock 5, Event.keyDown 2,
        Event.keyUp 2] initState).isRecording = false := by
  decide

/-- C2 amended: while recording, a toggle-binding Down stops the session no
matter which binding started it; a hold-binding Down (hold not yet latched)
leaves everything except the `hold_key_pressed` latch unchanged, and the
subsequent hold-binding Up then stops the session. -/
theorem C2_amended (cfg : Config) (a : AppState)
    (hk : cfg.toggleKey ≠ cfg.holdKey) (hr : a.isRecording = true) :
    (step cfg a (Event.keyDown cfg.toggleKey)).isRecording = false ∧
    (a.holdKeyPressed = false →
      step cfg a (Event.keyDown cfg.holdKey) = { a with holdKeyPressed := true } ∧
      (step cfg { a with holdKeyPressed := true }
          (Event.keyUp cfg.holdKey)).isRecording = false) := by
  have hk' : ¬(cfg.holdKey = cfg.toggleKey) := fun h => hk h.symm
  constructor
  · have : (toggleRecording a).isRecording = false := by
      simpa [toggleRecording, hr] using stopRecording_isRecording hr
    simpa [step] using this
  · intro hp
    have hnoop : startRecording { a with holdKeyPressed := true } =
        { a with holdKeyPressed := true } := startRecording_noop (by simpa using hr)
    refine ⟨by simp [step, hk', hp, hnoop], ?_⟩
    have hr2 : ({ a with holdKeyPressed := false } : AppState).isRecording = true := by
      simpa using hr
    simpa [step] using stopRecording_isRecording hr2

theorem C2_amended_witness :
    (step ⟨1, 2⟩ (run ⟨1, 2⟩ [Event.keyDown 1] initState)
        (Event.keyDown 1)).isRecording = false ∧
    step ⟨1, 2⟩ (run ⟨1, 2⟩ [Event.keyDown 1] initState) (Event.keyDown 2) =
      { run ⟨1, 2⟩ [Event.keyDown 1] initState with holdKeyPressed := true } :=
  ⟨(C2_amended ⟨1, 2⟩ (run ⟨1, 2⟩ [Event.keyDown 1] initState)
      (by decide) (by decide)).1,
   ((C2_amended ⟨1, 2⟩ (run ⟨1, 2⟩ [Event.keyDown 1] initState)
      (by decide) (by decide)).2 (by decide)).1⟩

/-! ## Claim C3 — commands during Transcribing

The spec claims every arbiter command delivered while a transcription is in
flight is dropped.  The code never consults the transcribing status in its
command handlers: once `stop_recording` has spawned the background thread,
`is_recording` is `False`, so a toggle command starts a brand-new recording
session while the transcription is still running. -/

/-- C3 counterexample: after `[Down 1, block, Down 1]` (toggle key 1) a
transcription is in flight (`inflight = 1`, status `transcribing`); the
next toggle Down is not dropped — it starts a new recording session. -/
theorem C3_counterexample :
    (run ⟨1, 2⟩ [Event.keyDown 1, Event.audioBlock 5, Event.keyDown 1]
        initState).status = Status.transcribing ∧
    (run ⟨1, 2⟩ [Event.keyDown 1, Event.audioBlock 5, Event.keyDown 1]
        initState).inflight = 1 ∧
    (run ⟨1, 2⟩ [Event.keyDown 1, Event.audioBlock 5, Event.keyDown 1,
        Event.keyDown 1] initState).isRecording = true := by
  decide

/-- C3 amended: while a transcription is in flight the controller is no
longer recording, so a stop command is a no-op, but a toggle (or start)
command immediately starts a new recording session — it is not dropped —
leaving the in-flight transcription count untouched. -/
theorem C3_amended (a : AppState) (h : a.isRecording = false) :
    stopRecording a = a ∧
    (toggleRecording a).isRecording = true ∧
    (toggleRecording a).inflight = a.inflight := by
  refine ⟨stopRecording_noop h, ?_, ?_⟩ <;>
    simp [toggleRecording, h, startRecording]

theorem C3_amended_witness :
    stopRecording (run ⟨1, 2⟩ [Event.keyDown 1, Event.audioBlock 5,
        Event.keyDown 1] initState) =
      run ⟨1, 2⟩ [Event.keyDown 1, Event.audioBlock 5, Event.keyDown 1]
        initState ∧
    (toggleRecording (run ⟨1, 2⟩ [Event.keyDown 1, Event.audioBlock 5,
        Event.keyDown 1] initState)).isRecording = true :=
  ⟨(C3_amended _ (by decide)).1, (C3_amended _ (by decide)).2.1⟩

/-! ## Claim C7 — zero-audio path -/

/-- C7: when zero sample blocks were captured, `Recorder.stop` returns
`None` and `stop_recording` goes straight back to `ready` (Idle) without
spawning the transcription thread (`inflight` unchanged — the engine is
only ever invoked from that thread). -/
theorem C7_zero_audio (a : AppState) (hr : a.isRecording = true)
    (hz : a.recorder.audioData = []) :
    (recorderStop a.recorder).2 = none ∧
    (stopRecording a).status = Status.ready ∧
    (stopRecording a).isRecording = false ∧
    (stopRecording a).inflight = a.inflight := by
  have hnone : recorderStop a.recorder =
      ({ recording := false, audioData := a.recorder.audioData,
         streamOpen := false }, none) := by
    simp [recorderStop, hz]
  refine ⟨by simp [hnone], ?_, ?_, ?_⟩ <;> simp [stopRecording, hr, hnone]

theorem C7_zero_audio_witness :
    (recorderStop (run ⟨1, 2⟩ [Event.keyDown 1] initState).recorder).2 = none ∧
    (stopRecording (run ⟨1, 2⟩ [Event.keyDown 1] initState)).status =
      Status.ready ∧
    (stopRecording (run ⟨1, 2⟩ [Event.keyDown 1] initState)).inflight =
      (run ⟨1, 2⟩ [Event.keyDown 1] initState).inflight :=
  ⟨(C7_zero_audio _ (by decide) (by decide)).1,
   (C7_zero_audio _ (by decide) (by decide)).2.1,
   (C7_zero_audio _ (by decide) (by decide)).2.2.2⟩

/-! ## Claim C9 — error paths and returning to Idle

The spec requires every recoverable error to return the state machine to
Idle.  The code's `do_transcribe` thread only runs
`update_status("ready")` as its last statement; when `transcribe` raises
(`FileNotFoundError` for a missing model/engine, see transcriber.py lines
20–21) or `save_training_data` raises on an I/O failure, the daemon thread
dies first and the status stays `transcribing` forever. -/

/-- C9: evaluating the code at the failing input — a recording with
captured audio whose background transcription raises — the error path
completes (`inflight = 0`) with the controller still showing
`transcribing`, not Idle; the same run with a non-raising transcription
does return to `ready`. -/
theorem C9_stuck_after_raise :
    (run ⟨1, 2⟩ [Event.keyDown 1, Event.audioBlock 5, Event.keyDown 1,
        Event.transDone TransOutcome.raised] initState).status =
      Status.transcribing ∧
    (run ⟨1, 2⟩ [Event.keyDown 1, Event.audioBlock 5, Event.keyDown 1,
        Event.transDone TransOutcome.raised] initState).inflight = 0 ∧
    (run ⟨1, 2⟩ [Event.keyDown 1, Event.audioBlock 5, Event.keyDown 1,
        Event.transDone TransOutcome.completed] initState).status =
      Status.ready := by
  decide

/-! ## Output normalization (transcriber.py lines 40–43)

`text = result.stdout.strip()` followed by
`lines = [line.strip() for line in text.split('\n') if line.strip()]` and
`' '.join(lines)`.  We model strings as lists of characters, Python's
`str.strip()` over the ASCII whitespace characters, and `split('\n')`
keeping empty fields. -/

/-- The whitespace characters recognised by `str.strip()` (ASCII subset:
space, tab, newline, carriage return, vertical tab, form feed). -/
def isWS (c : Char) : Bool :=
  c = ' ' || c = '\t' || c = '\n' || c = '\r' ||
    c = Char.ofNat 11 || c = Char.ofNat 12

def trimLeft (l : List Char) : List Char := l.dropWhile isWS

def trimRight (l : List Char) : List Char := (trimLeft l.reverse).reverse

/-- Python `str.strip()`. -/
def pyStrip (l : List Char) : List Char := trimRight (trimLeft l)

/-- Python `str.split('\n')` (keeps empty fields). -/
def splitNl : List Char → List (List Char)
  | [] => [[]]
  | c :: cs =>
      if c = '\n' then [] :: splitNl cs
      else
        match splitNl cs with
        | [] => [[c]]
        | l :: t => (c :: l) :: t

/-- Python `' '.join(lines)`. -/
def joinSpace (ls : List (List Char)) : List Char :=
  (ls.intersperse [' ']).flatten

/-- The comprehension `[line.strip() for line in lines if line.strip()]`. -/
def stripLines (ls : List (List Char)) : List (List Char) :=
  (ls.map pyStrip).filter (fun l => decide (l ≠ []))

/-- The normalization performed by `transcribe` in transcriber.py:
strip the whole stdout, split on newlines, strip each line, drop lines that
are empty after stripping, join with single spaces. -/
def pyNormalize (s : List Char) : List Char :=
  joinSpace (stripLines (splitNl (pyStrip s)))

/-- The normalization as the spec words it: trim each line of the raw
output, drop lines that are empty after trimming, join the remaining lines
with a single space (no whole-string pre-strip).  Modelled from the spec
for comparison with `pyNormalize`. -/
def specNormalize (s : List Char) : List Char :=
  joinSpace (stripLines (splitNl s))

/-- String-level version of the code's normalization. -/
def pyNormalizeStr (s : String) : String := String.mk (pyNormalize s.data)

theorem pyStrip_cons_ws {c : Char} (h : isWS c = true) (l : List Char) :
    pyStrip (c :: l) = pyStrip l := by
  simp [pyStrip, trimLeft, List.dropWhile_cons, h]

theorem trimRight_snoc_ws {c : Char} (h : isWS c = true) (l : List Char) :
    trimRight (l ++ [c]) = trimRight l := by
  simp [trimRight, trimLeft, List.dropWhile_cons, h]

theorem trimRight_snoc_not_ws {c : Char} (h : isWS c = false) (l : List Char) :
    trimRight (l ++ [c]) = l ++ [c] := by
  simp [trimRight, trimLeft, List.dropWhile_cons, h]

theorem pyStrip_snoc_ws {c : Char} (h : isWS c = true) (l : List Char) :
    pyStrip (l ++ [c]) = pyStrip l := by
  induction l with
  | nil => simp [pyStrip, trimLeft, List.dropWhile_cons, h, trimRight]
  | cons d t ih =>
      by_cases hd : isWS d
      · rw [List.cons_append, pyStrip_cons_ws hd, ih, pyStrip_cons_ws hd]
      · have hd' : isWS d = false := by simpa using hd
        simp only [pyStrip, trimLeft, List.cons_append, List.dropWhile_cons, hd',
          Bool.false_eq_true, if_false]
        exact trimRight_snoc_ws h (d :: t)

theorem splitNl_ne_nil (l : List Char) : splitNl l ≠ [] := by
  cases l with
  | nil => simp [splitNl]
  | cons c cs =>
      by_cases h : c = '\n'
      · simp [splitNl, h]
      · simp only [splitNl, h, if_false]
        cases splitNl cs <;> simp

/-- Appends a character to the last field of a split. -/
def appendLast (c : Char) : List (List Char) → List (List Char)
  | [] => [[c]]
  | [l] => [l ++ [c]]
  | l :: t => l :: appendLast c t

theorem appendLast_cons₂ (c : Char) (l : List Char) {t : List (List Char)}
    (h : t ≠ []) : appendLast c (l :: t) = l :: appendLast c t := by
  cases t with
  | nil => exact absurd rfl h
  | cons x y => rfl

theorem splitNl_snoc_nl (u : List Char) :
    splitNl (u ++ ['\n']) = splitNl u ++ [[]] := by
  induction u with
  | nil => simp [splitNl]
  | cons c cs ih =>
      by_cases h : c = '\n'
      · simp [splitNl, h, ih]
      · obtain ⟨l, t, e⟩ := List.exists_cons_of_ne_nil (splitNl_ne_nil cs)
        simp [splitNl, h, ih, e]

theorem splitNl_snoc {c : Char} (hc : ¬c = '\n') (u : List Char) :
    splitNl (u ++ [c]) = appendLast c (splitNl u) := by
  induction u with
  | nil => simp [splitNl, hc, appendLast]
  | cons d ds ih =>
      by_cases hd : d = '\n'
      · rw [List.cons_append]
        simp only [splitNl, hd, if_true]
        rw [ih, appendLast_cons₂ c [] (splitNl_ne_nil ds)]
      · obtain ⟨l, t, e⟩ := List.exists_cons_of_ne_nil (splitNl_ne_nil ds)
        rw [List.cons_append]
        simp only [splitNl, hd, if_false, ih, e]
        cases t with
        | nil => simp [appendLast]
        | cons x y =>
            rw [appendLast_cons₂ c l (by simp), appendLast_cons₂ c (d :: l) (by simp)]

theorem stripLines_cons (l : List Char) (r : List (List Char)) :
    stripLines (l :: r) =
      if pyStrip l = [] then stripLines r else pyStrip l :: stripLines r := by
  by_cases h : pyStrip l = [] <;> simp [stripLines, h]

theorem stripLines_cons_ws {c : Char} (h : isWS c = true) (l : List Char)
    (r : List (List Char)) :
    stripLines ((c :: l) :: r) = stripLines (l :: r) := by
  rw [stripLines_cons, stripLines_cons, pyStrip_cons_ws h]

theorem stripLines_nil_cons (r : List (List Char)) :
    stripLines ([] :: r) = stripLines r := by
  rw [stripLines_cons]
  simp [pyStrip, trimLeft, trimRight]

theorem stripLines_snoc_nil (ls : List (List Char)) :
    stripLines (ls ++ [[]]) = stripLines ls := by
  induction ls with
  | nil => simpa using stripLines_nil_cons []
  | cons l t ih => rw [List.cons_append, stripLines_cons, stripLines_cons, ih]

theorem stripLines_appendLast {c : Char} (h : isWS c = true)
    (ls : List (List Char)) : stripLines (appendLast c ls) = stripLines ls := by
  induction ls with
  | nil =>
      show stripLines [[c]] = stripLines []
      rw [stripLines_cons]
      have : pyStrip [c] = [] := by
        simp [pyStrip, trimLeft, List.dropWhile_cons, h, trimRight]
      simp [this]
  | cons l t ih =>
      cases t with
      | nil =>
          show stripLines [l ++ [c]] = stripLines [l]
          rw [stripLines_cons, stripLines_cons, pyStrip_snoc_ws h]
      | cons x y =>
          rw [appendLast_cons₂ c l (by simp), stripLines_cons, stripLines_cons, ih]

theorem stripLines_splitNl_snoc_ws {c : Char} (h : isWS c = true)
    (u : List Char) :
    stripLines (splitNl (u ++ [c])) = stripLines (splitNl u) := by
  by_cases hc : c = '\n'
  · subst hc
    rw [splitNl_snoc_nl, stripLines_snoc_nil]
  · rw [splitNl_snoc hc, stripLines_appendLast h]

theorem stripLines_splitNl_trimLeft (s : List Char) :
    stripLines (splitNl (trimLeft s)) = stripLines (splitNl s) := by
  induction s with
  | nil => rfl
  | cons c cs ih =>
      by_cases h : isWS c
      · rw [show trimLeft (c :: cs) = trimLeft cs by
          simp [trimLeft, List.dropWhile_cons, h], ih]
        by_cases hc : c = '\n'
        · rw [show splitNl (c :: cs) = [] :: splitNl cs by simp [splitNl, hc],
            stripLines_nil_cons]
        · obtain ⟨l, t, e⟩ := List.exists_cons_of_ne_nil (splitNl_ne_nil cs)
          rw [show splitNl (c :: cs) = (c :: l) :: t by simp [splitNl, hc, e],
            stripLines_cons_ws h, ← e]
      · have h' : isWS c = false := by simpa using h
        rw [show trimLeft (c :: cs) = c :: cs by
          simp [trimLeft, List.dropWhile_cons, h']]

theorem stripLines_splitNl_trimRight (s : List Char) :
    stripLines (splitNl (trimRight s)) = stripLines (splitNl s) := by
  induction s using List.reverseRecOn with
  | nil => rfl
  | append_singleton u c ih =>
      by_cases h : isWS c
      · rw [trimRight_snoc_ws h, ih, stripLines_splitNl_snoc_ws h]
      · rw [trimRight_snoc_not_ws (by simpa using h)]

/-- The code's normalization (global strip, then per-line strip / filter /
join) coincides with the spec's wording (per-line strip / filter / join) on
every input. -/
theorem pyNormalize_eq_specNormalize (s : List Char) :
    pyNormalize s = specNormalize s := by
  unfold pyNormalize specNormalize pyStrip
  rw [stripLines_splitNl_trimRight, stripLines_splitNl_trimLeft]

/-! ## Claim C5 — output normalization -/

/-- C5: for every engine stdout, the normalization in `transcribe` trims
each line, drops lines empty after trimming, and joins the rest with a
single space; in particular `"Hello\n  world  \n\n"` normalizes to exactly
`"Hello world"`. -/
theorem C5_normalization :
    (∀ s : List Char, pyNormalize s = specNormalize s) ∧
    pyNormalizeStr "Hello\n  world  \n\n" = "Hello world" := by
  refine ⟨pyNormalize_eq_specNormalize, ?_⟩
  decide

/-! ## Transcription invocation (transcriber.py / backend/server.py) -/

/-- Behaviour of one invocation of the external engine: either the
executable is missing, or the process would run for `dur` seconds and then
exit with status `exitCode` producing `stdout`. -/
inductive EngineBehavior where
  | binMissing
  | runs (dur : Nat) (exitCode : Int) (stdout : String)
deriving DecidableEq

/-- The exceptions relevant to the transcription call sites. -/
inductive PyErr where
  | fileNotFoundError
  | timeoutExpired
deriving DecidableEq

/-- `subprocess.run(..., capture_output=True)` with an optional `timeout`
argument: a missing executable raises `FileNotFoundError`; when a timeout
is set and the process runs longer, `TimeoutExpired` is raised; otherwise
the exit status and stdout are returned.  With `timeout = none` the call
waits indefinitely and always returns once the process ends. -/
def subprocessRun (timeLimit : Option Nat) (beh : EngineBehavior) :
    Except PyErr (Int × String) :=
  match beh with
  | .binMissing => .error .fileNotFoundError
  | .runs dur exitCode stdout =>
      match timeLimit with
      | none => .ok (exitCode, stdout)
      | some t => if t < dur then .error .timeoutExpired else .ok (exitCode, stdout)

/-- transcriber.py invokes the engine through the `nice` wrapper
(`["nice", "-n", "10", "whisper-cli", ...]`): the spawned executable is
`nice` itself, so a missing `whisper-cli` binary does not raise
`FileNotFoundError` — `nice` starts fine, fails to exec the engine, and
exits with status 127 and empty output. -/
def niceRun : EngineBehavior → EngineBehavior
  | .binMissing => .runs 0 127 ""
  | .runs dur exitCode stdout => .runs dur exitCode stdout

/-- `transcribe` of transcriber.py: raises `FileNotFoundError` when the
model file is missing; calls `subprocess.run` on the `nice`-wrapped engine
with NO timeout argument (the call waits for the process indefinitely);
returns `""` on a non-zero exit status — which covers a missing engine
binary, surfaced as `nice` exiting 127 — and the normalized stdout
otherwise. -/
def transcriberTranscribe (modelExists : Bool) (beh : EngineBehavior) :
    Except PyErr String :=
  if modelExists = false then .error .fileNotFoundError
  else
    match subprocessRun none (niceRun beh) with
    | .error e => .error e
    | .ok (exitCode, stdout) =>
        if exitCode ≠ 0 then .ok "" else .ok (pyNormalizeStr stdout)

/-- `RecorderState.transcribe` of backend/server.py: `subprocess.run` with
`timeout=120` inside try/except; returns `None` on non-zero exit,
`TimeoutExpired`, `FileNotFoundError` or any other exception, and the
normalized stdout otherwise. -/
def serverTranscribe (beh : EngineBehavior) : Option String :=
  match subprocessRun (some 120) beh with
  | .error _ => none
  | .ok (exitCode, stdout) =>
      if exitCode ≠ 0 then none else some (pyNormalizeStr stdout)

/-! ## Claim C4 — bounded timeout and failure modes of the transcription
step

The claim holds for `RecorderState.transcribe` in backend/server.py but
not for `transcribe` in transcriber.py: the latter passes no timeout to
`subprocess.run`, so the engine call can block arbitrarily long and never
times out, and it raises `FileNotFoundError` to its caller when the model
file is missing.  (A missing engine binary, by contrast, does return empty
text there: the spawned `nice` exits 127.) -/

/-- C4 counterexample: transcriber.py's `transcribe` raises
`FileNotFoundError` to the controller when the model file is missing
instead of returning an empty-text result, and an engine run lasting 10^6
seconds is awaited to completion — there is no 120 s (nor any) ceiling on
the call. -/
theorem C4_counterexample :
    transcriberTranscribe false EngineBehavior.binMissing =
      Except.error PyErr.fileNotFoundError ∧
    transcriberTranscribe true (EngineBehavior.runs 1000000 0 "hi") =
      Except.ok "hi" := by
  exact ⟨rfl, rfl⟩

/-- C4 amended: the backend server's transcription step bounds the engine
call with a 120 s timeout and returns an empty result (`None`) on timeout,
non-zero exit and engine-not-found alike; transcriber.py's `transcribe`
returns empty text on a non-zero exit status — including a missing engine
binary, surfaced as the `nice` wrapper exiting 127 — but it invokes the
engine with no timeout at all (the call is unbounded and never times out),
and it raises `FileNotFoundError` to the caller when the model file is
missing. -/
theorem C4_amended (beh : EngineBehavior) (dur : Nat) (exitCode : Int)
    (stdout : String) :
    transcriberTranscribe false beh = Except.error PyErr.fileNotFoundError ∧
    transcriberTranscribe true EngineBehavior.binMissing = Except.ok "" ∧
    (exitCode ≠ 0 →
      transcriberTranscribe true (EngineBehavior.runs dur exitCode stdout) =
        Except.ok "") ∧
    transcriberTranscribe true (EngineBehavior.runs dur 0 stdout) =
      Except.ok (pyNormalizeStr stdout) ∧
    serverTranscribe EngineBehavior.binMissing = none ∧
    (120 < dur →
      serverTranscribe (EngineBehavior.runs dur exitCode stdout) = none) ∧
    (exitCode ≠ 0 → dur ≤ 120 →
      serverTranscribe (EngineBehavior.runs dur exitCode stdout) = none) ∧
    (exitCode = 0 → dur ≤ 120 →
      serverTranscribe (EngineBehavior.runs dur exitCode stdout) =
        some (pyNormalizeStr stdout)) := by
  refine ⟨rfl, rfl, fun h => ?_, ?_, rfl, fun h => ?_, fun h hd => ?_,
    fun h hd => ?_⟩
  · simp [transcriberTranscribe, subprocessRun, niceRun, h]
  · simp [transcriberTranscribe, subprocessRun, niceRun]
  · simp [serverTranscribe, subprocessRun, h]
  · simp [serverTranscribe, subprocessRun, h, Nat.not_lt.mpr hd]
  · simp [serverTranscribe, subprocessRun, h, Nat.not_lt.mpr hd]

theorem C4_amended_witness :
    transcriberTranscribe true (EngineBehavior.runs 1 1 "x") = Except.ok "" ∧
    serverTranscribe (EngineBehavior.runs 200 0 "x") = none ∧
    serverTranscribe (EngineBehavior.runs 1 0 "x") = some (pyNormalizeStr "x") :=
  ⟨(C4_amended (EngineBehavior.runs 1 1 "x") 1 1 "x").2.2.1 (by decide),
   (C4_amended (EngineBehavior.runs 200 0 "x") 200 0 "x").2.2.2.2.2.1
     (by decide),
   (C4_amended (EngineBehavior.runs 1 0 "x") 1 0 "x").2.2.2.2.2.2.2 rfl
     (by decide)⟩

/-! ## Claim C6 — sequential training-data IDs -/

/-- The ID computation of `save_training_data` (app.py): `1` when no
`audio_*.wav` files exist, otherwise `max(numbers) + 1` over the IDs
parsed from the existing filenames. -/
def nextId : List Nat → Nat
  | [] => 1
  | n :: rest => rest.foldl Nat.max n + 1

/-- The ID computation of `save_transcript` (backend/server.py):
`max(nums, default=0) + 1`. -/
def nextIdServer (ids : List Nat) : Nat := ids.foldl Nat.max 0 + 1

theorem le_foldl_max (l : List Nat) (a : Nat) : a ≤ l.foldl Nat.max a := by
  induction l generalizing a with
  | nil => simp
  | cons x t ih => exact le_trans (Nat.le_max_left a x) (ih (Nat.max a x))

theorem mem_le_foldl_max {l : List Nat} {i : Nat} (h : i ∈ l) (a : Nat) :
    i ≤ l.foldl Nat.max a := by
  induction l generalizing a with
  | nil => cases h
  | cons x t ih =>
      rcases List.mem_cons.mp h with h1 | h1
      · subst h1
        exact le_trans (Nat.le_max_right a i) (le_foldl_max t (Nat.max a i))
      · exact ih h1 (Nat.max a x)

/-- C6: `save()` assigns `1 + max` of the existing IDs (`1` when there are
none), computed from the persisted files alone; it is gap-tolerant
(`{1,3,4}` yields `5`), the fresh ID is strictly larger than every
existing ID (so IDs are never reused), and the server variant computes the
same function. -/
theorem C6_sequential_ids (ids : List Nat) :
    nextId [] = 1 ∧
    (ids ≠ [] → nextId ids = ids.foldl Nat.max 0 + 1) ∧
    (∀ i ∈ ids, i < nextId ids) ∧
    nextIdServer ids = nextId ids ∧
    nextId [1, 3, 4] = 5 := by
  refine ⟨rfl, ?_, ?_, ?_, by decide⟩
  · intro h
    cases ids with
    | nil => exact absurd rfl h
    | cons n rest => simp [nextId, List.foldl_cons, Nat.max, Nat.zero_max]
  · intro i hi
    cases ids with
    | nil => cases hi
    | cons n rest =>
        rcases List.mem_cons.mp hi with h1 | h1
        · subst h1
          exact Nat.lt_succ_of_le (le_foldl_max rest i)
        · exact Nat.lt_succ_of_le (mem_le_foldl_max h1 n)
  · cases ids with
    | nil => rfl
    | cons n rest => simp [nextIdServer, nextId, List.foldl_cons, Nat.zero_max]

theorem C6_sequential_ids_witness :
    nextId [1, 3, 4] = [1, 3, 4].foldl Nat.max 0 + 1 ∧
    3 < nextId [1, 3, 4] :=
  ⟨(C6_sequential_ids [1, 3, 4]).2.1 (by decide),
   (C6_sequential_ids [1, 3, 4]).2.2.1 3 (by decide)⟩

/-! ## Claim C8 — modifier matching (panokeet_v3.py check_modifiers)

The claim says matching is exact-set: an event with extra modifiers must
not match a binding with a non-empty modifier set.  `check_modifiers` only
checks that every REQUIRED modifier is pressed and never rejects extra
pressed modifiers, so matching is subset matching, not exact-set
matching. -/

inductive Modifier where
  | cmd
  | shift
  | opt
  | ctrl
deriving DecidableEq

/-- The four modifier flags read off the `NSEvent` in `check_modifiers`. -/
structure ModFlags where
  cmd : Bool
  shift : Bool
  opt : Bool
  ctrl : Bool
deriving DecidableEq

def hasMod (f : ModFlags) : Modifier → Bool
  | .cmd => f.cmd
  | .shift => f.shift
  | .opt => f.opt
  | .ctrl => f.ctrl

/-- `PanokeetV3.check_modifiers`: walks the binding's required-modifier
list and returns `False` as soon as a required modifier is not pressed;
pressed modifiers beyond the required ones are never examined. -/
def check_modifiers (f : ModFlags) : List Modifier → Bool
  | [] => true
  | m :: rest => if hasMod f m = false then false else check_modifiers f rest

/-- Exact-set matching as the claim words it: with a non-empty binding set
the event's modifier set must equal it exactly; with an empty binding set
any modifier state is accepted.  Modelled from the claim for comparison
with `check_modifiers`. -/
def exactMatch (f : ModFlags) (req : List Modifier) : Bool :=
  if req = [] then true
  else
    decide (f = ⟨decide (Modifier.cmd ∈ req), decide (Modifier.shift ∈ req),
      decide (Modifier.opt ∈ req), decide (Modifier.ctrl ∈ req)⟩)

/-- C8 counterexample: an event with Cmd and Shift pressed matches a
binding requiring only Cmd — `check_modifiers` accepts although the
event's modifier set is not equal to the binding's set. -/
theorem C8_counterexample :
    check_modifiers ⟨true, true, false, false⟩ [Modifier.cmd] = true ∧
    exactMatch ⟨true, true, false, false⟩ [Modifier.cmd] = false := by
  decide

/-- C8 amended: an event matches a binding's modifier requirement exactly
when every required modifier is pressed — the binding's set must be a
subset of the event's modifiers, extra pressed modifiers are accepted, and
a binding with no modifiers matches under any modifier state. -/
theorem C8_amended (f : ModFlags) (req : List Modifier) :
    check_modifiers f req = true ↔ ∀ m ∈ req, hasMod f m = true := by
  induction req with
  | nil => simp [check_modifiers]
  | cons m rest ih =>
      cases h : hasMod f m with
      | false => simp [check_modifiers, h]
      | true => simp [check_modifiers, h, ih]

theorem C8_amended_witness :
    check_modifiers ⟨true, true, false, false⟩ [Modifier.cmd, Modifier.shift] =
      true :=
  (C8_amended ⟨true, true, false, false⟩ [Modifier.cmd, Modifier.shift]).mpr
    (by decide)

/-! ## Claim C10 — review popup result (popup.py) -/

/-- How the user ends the review popup: the Done button (or Enter) with
the current text-view contents, the Escape key, or closing the window
without pressing Done. -/
inductive PopupOutcome where
  | done (finalText : String)
  | escape
  | closedNoDone
deriving DecidableEq

structure PopupResult where
  action : String
  text : String
  wasEdited : Bool
deriving DecidableEq

/-- `TranscriptionPopup.show` / `onDone_` / `onCancel_`: the result is
preset to a cancel record holding the original transcription (returned
unchanged when the window closes without Done); `onDone_` stores the
text-view contents with `was_edited = (text != original)`; Escape invokes
`onCancel_`, which rewrites the cancel record. -/
def popupShow (original : String) : PopupOutcome → PopupResult
  | .done t =>
      { action := "done", text := t,
        wasEdited := if t = original then false else true }
  | .escape => { action := "cancel", text := original, wasEdited := false }
  | .closedNoDone => { action := "cancel", text := original, wasEdited := false }

/-- C10: the returned `was_edited` flag is true exactly when the returned
text differs from the presented transcription, and on every cancel path
(Escape, or closing without Done) the result is
`action = "cancel"`, the original text, and `was_edited = false`. -/
theorem C10_popup (original : String) (o : PopupOutcome) :
    ((popupShow original o).wasEdited = true ↔
      (popupShow original o).text ≠ original) ∧
    (o = PopupOutcome.escape ∨ o = PopupOutcome.closedNoDone →
      (popupShow original o).action = "cancel" ∧
      (popupShow original o).text = original ∧
      (popupShow original o).wasEdited = false) := by
  cases o with
  | done t =>
      refine ⟨?_, by rintro (h | h) <;> cases h⟩
      by_cases h : t = original <;> simp [popupShow, h]
  | escape => exact ⟨by simp [popupShow], fun _ => ⟨rfl, rfl, rfl⟩⟩
  | closedNoDone => exact ⟨by simp [popupShow], fun _ => ⟨rfl, rfl, rfl⟩⟩

theorem C10_popup_witness :
    (popupShow "hello" PopupOutcome.escape).action = "cancel" ∧
    (popupShow "hello" PopupOutcome.escape).text = "hello" ∧
    (popupShow "hello" PopupOutcome.escape).wasEdited = false :=
  (C10_popup "hello" PopupOutcome.escape).2 (Or.inl rfl)

end Panokeet
